import Mathlib

/-!
Shallow embedding of the CRP Slack-workflow bot (`src/Baby Foot AU/cro101/var-1.js`).

The program is a sequence of Slack modal handlers threaded through opaque
`private_metadata`, calling a GitHub content API ("get file sha" / "create or
update file contents").  Each handler is embedded as a pure Lean function:

  * Slack form state (`view.state`) is a lookup `blockId → actionId → Option String`;
  * the GitHub read side is an oracle `String → GetContentResult` giving, per
    path, what `octokit.repos.getContent` would produce;
  * the GitHub write side is an oracle `WriteReq → Except String Unit`
    (`.error msg` models a thrown error with `e.message = msg`);
  * JavaScript truthiness (`x || y`), `parseInt(s, 10)` (with `NaN`), and
    template rendering of numbers (including `NaN`) are modelled explicitly.
-/

namespace CRP

/-- JavaScript `parseInt(s, 10)`: skip leading whitespace, optional sign, then
the maximal digit prefix; `none` models `NaN` (no digits found). -/
def takeDigits : List Char → List Char
  | [] => []
  | c :: cs => if c.isDigit then c :: takeDigits cs else []

def digitsToNat (ds : List Char) : Nat :=
  ds.foldl (fun acc c => acc * 10 + (c.toNat - 48)) 0

def jsParseInt (s : String) : Option Int :=
  let cs := s.data.dropWhile (fun c => c.isWhitespace)
  let signed : Int × List Char :=
    match cs with
    | '-' :: r => (-1, r)
    | '+' :: r => (1, r)
    | r => (1, r)
  let ds := takeDigits signed.2
  if ds.isEmpty then none
  else some (signed.1 * (digitsToNat ds : Int))

/-- JavaScript `n || d` for a number `n` that may be `NaN` (`none`):
`NaN` and `0` are falsy. -/
def jsOrInt (o : Option Int) (d : Int) : Int :=
  match o with
  | none => d
  | some i => if i = 0 then d else i

/-- JavaScript template rendering of a number that may be `NaN`. -/
def jsNumStr : Option Int → String
  | none => "NaN"
  | some i => toString i

/-- JavaScript template rendering of a value that may be `undefined`. -/
def jsStr : Option String → String
  | none => "undefined"
  | some s => s

/-- JavaScript `sha || undefined` on a nullable string (empty string is falsy). -/
def jsOrUndef : Option String → Option String
  | none => none
  | some s => if s = "" then none else some s

/-- JavaScript `!!sha` on a nullable string. -/
def jsTruthyOpt : Option String → Bool
  | none => false
  | some s => !(s == "")

/-- JavaScript `String.prototype.trim`: strip leading and trailing whitespace. -/
def jsTrim (s : String) : String :=
  ⟨((s.data.dropWhile (fun c => c.isWhitespace)).reverse.dropWhile
      (fun c => c.isWhitespace)).reverse⟩

/-- Slack `view.state`: per (block_id, action_id) the submitted value, if any. -/
def FormState := String → String → Option String

/-- `getStateValue` from the source: `.value || .selected_option?.value || null`;
an empty string is falsy in JS, so it collapses to `null`. -/
def getStateValue (state : FormState) (blockId actionId : String) : Option String :=
  match state blockId actionId with
  | some v => if v = "" then none else some v
  | none => none

/-- One entry of the `CLIENTS` configuration mapping. -/
structure Cfg where
  owner : String
  repo : String
  testsPath : String
deriving Repr, DecidableEq

/-- The parsed `private_metadata` object.  Fields are optional because JS
destructuring of a missing key yields `undefined`, and `JSON.stringify`
omits `undefined`-valued keys. -/
structure Meta where
  clientKey : Option String
  testName : Option String
  existsFlag : Option Bool
  count : Option Int
deriving Repr, DecidableEq

/-- What `octokit.repos.getContent` produces for a path. -/
inductive GetContentResult where
  | dir
  | file (sha : String)
  | noSha
  | notFound
  | err (msg : String)
deriving Repr, DecidableEq

/-- `githubGetFileSha`: directory → `'DIR'`, file with truthy sha → the sha,
otherwise `null`; a 404 is mapped to `null`; any other error propagates. -/
def githubGetFileSha : GetContentResult → Except String (Option String)
  | .dir => .ok (some "DIR")
  | .file s => .ok (if s = "" then none else some s)
  | .noSha => .ok none
  | .notFound => .ok none
  | .err m => .error m

/-- One `githubWriteFile` call (`createOrUpdateFileContents`): `sha = none`
means the call carries no expected-revision precondition. -/
structure WriteReq where
  path : String
  content : String
  message : String
  branch : String
  sha : Option String
deriving Repr, DecidableEq

/-- A rendered Slack block (the parts the handlers produce). -/
inductive Block where
  | header (text : String)
  | inputB (blockId : String) (label : String) (multiline : Bool)
  | section (text : String)
  | actions (blockId : String) (buttons : List (String × String))
deriving Repr, DecidableEq

/-- A rendered Slack modal view. -/
structure View where
  callbackId : String
  metadata : Option Meta
  title : String
  blocks : List Block
deriving Repr, DecidableEq

/-- The `ack` response of a view-submission handler. -/
inductive Ack where
  | errors (errs : List (String × String))
  | pushView (v : View)
  | updateView (v : View)
deriving Repr, DecidableEq

/-- The test name as computed by step 1:
`(getStateValue(view.state, 'testname_block', 'test_name') || '').trim()`. -/
def pickTestName (state : FormState) : String :=
  jsTrim ((getStateValue state "testname_block" "test_name").getD "")

/-- Outcome of the `crp_pick_client_test` submission handler:
the `ack` response plus the list of GitHub paths queried (in order). -/
structure PickOut where
  ack : Ack
  ghCalls : List String
deriving Repr, DecidableEq

/-- Handler `crp_pick_client_test` (step 1 submission): validate both fields,
look the client up in `CLIENTS`, query GitHub for the test directory, then
either re-render with field errors, render a terminal error view, or push the
create/update choice view with `{clientKey, testName, exists}` attached. -/
def crp_pick_client_test (clients : String → Option Cfg)
    (gh : String → GetContentResult) (state : FormState) : PickOut :=
  let ckOpt := getStateValue state "client_block" "client_select"
  let testName := pickTestName state
  if ckOpt.isNone || testName == "" then
    ⟨.errors ((if ckOpt.isNone then [("client_block", "Please select a client.")] else []) ++
              (if testName == "" then [("testname_block", "Please enter a test name.")] else [])),
     []⟩
  else
    match clients (ckOpt.getD "") with
    | none => ⟨.errors [("client_block", "Unknown client in configuration.")], []⟩
    | some cfg =>
      let dirPath := cfg.testsPath ++ "/" ++ testName
      match githubGetFileSha (gh dirPath) with
      | .error e =>
        ⟨.updateView
          { callbackId := "noop", metadata := none, title := "CRP Automation",
            blocks := [.section ("❌ GitHub check failed:\n`" ++ e ++ "`")] },
         [dirPath]⟩
      | .ok sha =>
        let ex := jsTruthyOpt sha
        ⟨.pushView
          { callbackId := "crp_update_or_create",
            metadata := some ⟨some (ckOpt.getD ""), some testName, some ex, none⟩,
            title := "CRP Automation",
            blocks :=
              [ .section (if ex then "*Test found:* `" ++ dirPath ++ "`\nWhat would you like to do?"
                          else "*No existing test* at `" ++ dirPath ++ "`."),
                .actions "choice_block"
                  ([("create", "choose_create")] ++
                   (if ex then [("update", "choose_update")] else [])) ] },
         [dirPath]⟩

/-- Handler `choose_create` (button): replace the view with the variation-count
prompt, passing `private_metadata` through unchanged. -/
def choose_create (meta : Meta) : View :=
  { callbackId := "crp_collect_variation_count", metadata := some meta,
    title := "Create New Test",
    blocks := [.inputB "varcount_block" "Number of variations (1-5)" false] }

/-- `Math.max(1, Math.min(5, parseInt(raw, 10) || 1))`. -/
def clampCount (raw : String) : Int :=
  max 1 (min 5 (jsOrInt (jsParseInt raw) 1))

/-- The snippet-entry blocks: per variation `i` in `1..n`, a header, a JS
input `js_i` and a CSS input `css_i`. -/
def snippetBlocks (n : Nat) : List Block :=
  (List.range n).flatMap fun j =>
    let i := j + 1
    [ .header ("Variation " ++ toString i),
      .inputB ("js_" ++ toString i) ("JS snippet " ++ toString i) true,
      .inputB ("css_" ++ toString i) ("CSS snippet " ++ toString i) true ]

/-- Handler `crp_collect_variation_count` (count submission): parse and clamp
the count, re-serialize `{clientKey, testName, count}` (note: `exists` is not
destructured, hence dropped), and render the snippet fields. -/
def crp_collect_variation_count (meta : Meta) (state : FormState) : View :=
  let raw := (getStateValue state "varcount_block" "var_count").getD "1"
  let count := clampCount raw
  { callbackId := "crp_create_commit",
    metadata := some ⟨meta.clientKey, meta.testName, none, some count⟩,
    title := "New Test Snippets",
    blocks := snippetBlocks count.toNat }

/-- Number of iterations of `for (let i = 1; i <= count; i++)` when `count` is
a JS value that may be `undefined` (`i <= undefined` is false). -/
def loopIters : Option Int → Nat
  | none => 0
  | some c => c.toNat

/-- The `ops` array of `crp_create_commit`: per variation `i` in `1..n`, the
pair of (path, content) for `var-i.js` then `var-i.css`. -/
def createOps (cfg : Cfg) (testName : String) (n : Nat) (state : FormState) :
    List (String × String) :=
  (List.range n).flatMap fun j =>
    let i := j + 1
    let js := (getStateValue state ("js_" ++ toString i) "val").getD ""
    let css := (getStateValue state ("css_" ++ toString i) "val").getD ""
    let base := cfg.testsPath ++ "/" ++ testName ++ "/var-" ++ toString i
    [(base ++ ".js", js), (base ++ ".css", css)]

/-- The commit message of a create-flow write:
`` `CRP: create ${testName} (${clientKey}) -> ${op.path}` ``. -/
def createMsg (testName clientKey : String) (path : String) : String :=
  "CRP: create " ++ testName ++ " (" ++ clientKey ++ ") -> " ++ path

/-- JS template rendering of the `count` destructured from metadata. -/
def jsCountStr : Option Int → String
  | none => "undefined"
  | some c => toString c

/-- Outcome of a commit handler: GitHub read calls (in order), write calls
issued (in order, including a failing one), the result of the try-block, and
the `ack` response. -/
structure CommitOut where
  ghCalls : List String
  writes : List WriteReq
  result : Except String Unit
  ack : Ack
deriving Repr

/-- The body of the create-flow try-block: for each (path, content) in order,
fetch the path's sha and write with `sha || undefined`; stop at the first
thrown error.  Returns (paths fetched, writes issued, result). -/
def runWriteLoop (gh : String → GetContentResult) (put : WriteReq → Except String Unit)
    (mkMsg : String → String) (branch : String) :
    List (String × String) → List String × List WriteReq × Except String Unit
  | [] => ([], [], .ok ())
  | (path, content) :: rest =>
    match githubGetFileSha (gh path) with
    | .error e => ([path], [], .error e)
    | .ok sha =>
      let w : WriteReq := ⟨path, content, mkMsg path, branch, jsOrUndef sha⟩
      match put w with
      | .error e => ([path], [w], .error e)
      | .ok _ =>
        let r := runWriteLoop gh put mkMsg branch rest
        (path :: r.1, w :: r.2.1, r.2.2)

/-- A terminal (callback `noop`) view with a single section. -/
def noopView (title text : String) : View :=
  { callbackId := "noop", metadata := none, title := title,
    blocks := [.section text] }

/-- Handler `crp_create_commit` (snippet submission): build the 2·count ops,
run the sequential fetch-then-write loop, and ack with a success or error
terminal view.  `none` models the handler throwing before any ack (unknown
client: `cfg.testsPath` on `undefined`). -/
def crp_create_commit (clients : String → Option Cfg) (gh : String → GetContentResult)
    (put : WriteReq → Except String Unit) (branch : String)
    (meta : Meta) (state : FormState) : Option CommitOut :=
  match clients (jsStr meta.clientKey) with
  | none => none
  | some cfg =>
    let testName := jsStr meta.testName
    let ops := createOps cfg testName (loopIters meta.count) state
    let r := runWriteLoop gh put (createMsg testName (jsStr meta.clientKey)) branch ops
    some
      { ghCalls := r.1, writes := r.2.1, result := r.2.2,
        ack := match r.2.2 with
          | .ok _ =>
            .updateView (noopView "Created ✅"
              ("Created *" ++ testName ++ "* for *" ++ jsStr meta.clientKey ++ "* with " ++
               jsCountStr meta.count ++ " variation(s)."))
          | .error e =>
            .updateView (noopView "Error" ("❌ GitHub error creating files:\n`" ++ e ++ "`")) }

/-- Handler `choose_update` (button): replace the view with the update form,
passing `private_metadata` through unchanged (`none` models the handler
throwing on an unknown client before rendering). -/
def choose_update (clients : String → Option Cfg) (meta : Meta) : Option View :=
  match clients (jsStr meta.clientKey) with
  | none => none
  | some cfg =>
    let baseDir := cfg.testsPath ++ "/" ++ jsStr meta.testName
    some
      { callbackId := "crp_update_commit", metadata := some meta,
        title := "Update Existing Test",
        blocks :=
          [ .section ("Updating files under `" ++ baseDir ++ "` (default: var-1)"),
            .inputB "var_id" "Variation number" false,
            .inputB "u_js" "New JS snippet" true,
            .inputB "u_css" "New CSS snippet" true ] }

/-- The variation index of the update flow:
`parseInt(getStateValue(state, 'var_id', 'val') || '1', 10)`; `none` is `NaN`. -/
def updateIndex (state : FormState) : Option Int :=
  jsParseInt ((getStateValue state "var_id" "val").getD "1")

/-- The two target paths of the update flow, built from the index as rendered
by a JS template (so `NaN` renders as `"NaN"`). -/
def updateTargetPaths (cfg : Cfg) (testName : String) (state : FormState) :
    String × String :=
  let v := updateIndex state
  (cfg.testsPath ++ "/" ++ testName ++ "/var-" ++ jsNumStr v ++ ".js",
   cfg.testsPath ++ "/" ++ testName ++ "/var-" ++ jsNumStr v ++ ".css")

/-- Handler `crp_update_commit` (update submission): fetch both shas, then
write `var-v.js` and `var-v.css` with `sha || undefined`; any thrown error
lands in the catch which acks the terminal error view. -/
def crp_update_commit (clients : String → Option Cfg) (gh : String → GetContentResult)
    (put : WriteReq → Except String Unit) (branch : String)
    (meta : Meta) (state : FormState) : Option CommitOut :=
  match clients (jsStr meta.clientKey) with
  | none => none
  | some cfg =>
    let testName := jsStr meta.testName
    let v := updateIndex state
    let js := (getStateValue state "u_js" "val").getD ""
    let css := (getStateValue state "u_css" "val").getD ""
    let paths := updateTargetPaths cfg testName state
    let run : List String × List WriteReq × Except String Unit :=
      match githubGetFileSha (gh paths.1) with
      | .error e => ([paths.1], [], .error e)
      | .ok jsSha =>
        match githubGetFileSha (gh paths.2) with
        | .error e => ([paths.1, paths.2], [], .error e)
        | .ok cssSha =>
          let w1 : WriteReq :=
            ⟨paths.1, js, "CRP: update " ++ testName ++ " var-" ++ jsNumStr v ++ ".js",
             branch, jsOrUndef jsSha⟩
          match put w1 with
          | .error e => ([paths.1, paths.2], [w1], .error e)
          | .ok _ =>
            let w2 : WriteReq :=
              ⟨paths.2, css, "CRP: update " ++ testName ++ " var-" ++ jsNumStr v ++ ".css",
               branch, jsOrUndef cssSha⟩
            match put w2 with
            | .error e => ([paths.1, paths.2], [w1, w2], .error e)
            | .ok _ => ([paths.1, paths.2], [w1, w2], .ok ())
    some
      { ghCalls := run.1, writes := run.2.1, result := run.2.2,
        ack := match run.2.2 with
          | .ok _ =>
            .updateView (noopView "Updated ✅"
              ("Updated *" ++ testName ++ "* variation *" ++ jsNumStr v ++ "* for *" ++
               jsStr meta.clientKey ++ "*."))
          | .error e =>
            .updateView (noopView "Error" ("❌ GitHub update failed:\n`" ++ e ++ "`")) }

/-! ## Derived observations on handler outputs -/

/-- `true` iff `getContent` would throw a non-404 error for this result. -/
def isGhErr : GetContentResult → Bool
  | .err _ => true
  | _ => false

/-- The marker `githubGetFileSha` returns when it does not throw. -/
def okSha : GetContentResult → Option String
  | .dir => some "DIR"
  | .file s => if s = "" then none else some s
  | .noSha => none
  | .notFound => none
  | .err _ => none

/-- The write request the create loop builds for a (path, content) pair,
assuming the sha fetch for the path does not throw. -/
def buildWrite (gh : String → GetContentResult) (mkMsg : String → String)
    (branch : String) (pc : String × String) : WriteReq :=
  ⟨pc.1, pc.2, mkMsg pc.1, branch, jsOrUndef (okSha (gh pc.1))⟩

/-- The block_ids of the input blocks of a view, in order. -/
def inputIds (bs : List Block) : List String :=
  bs.filterMap fun b => match b with | .inputB bid _ _ => some bid | _ => none

/-- All buttons ((value, action_id) pairs) of a view, in order. -/
def viewButtons (v : View) : List (String × String) :=
  v.blocks.flatMap fun b => match b with | .actions _ bs => bs | _ => []

/-- The existence flag carried in the metadata of a pushed view, if any. -/
def ackExistsFlag : Ack → Option Bool
  | .pushView v => match v.metadata with | some meta => meta.existsFlag | none => none
  | _ => none

/-- Whether an ack pushes the create/update choice view. -/
def ackIsChoicePush : Ack → Bool
  | .pushView v => v.callbackId == "crp_update_or_create"
  | _ => false

/-- Whether the acked view offers the "Update Existing" button. -/
def ackOffersUpdate : Ack → Bool
  | .pushView v => (viewButtons v).contains ("update", "choose_update")
  | _ => false

/-- The field-level error annotations of an `errors` ack. -/
def ackFieldErrors : Ack → Option (List (String × String))
  | .errors errs => some errs
  | _ => none

/-- The expected create-flow target paths for `n` variations:
`var-1.js, var-1.css, …, var-n.js, var-n.css` under `<testsPath>/<testName>`. -/
def expectedCreatePaths (testsPath testName : String) (n : Nat) : List String :=
  (List.range n).flatMap fun j =>
    [testsPath ++ "/" ++ testName ++ "/var-" ++ toString (j + 1) ++ ".js",
     testsPath ++ "/" ++ testName ++ "/var-" ++ toString (j + 1) ++ ".css"]

/-- Writes issued by a commit handler (none when the handler threw before
acking). -/
def outWrites : Option CommitOut → List WriteReq
  | some out => out.writes
  | none => []

/-- GitHub read calls issued by a commit handler. -/
def outGhCalls : Option CommitOut → List String
  | some out => out.ghCalls
  | none => []

/-- The ack response of a commit handler, if it acked. -/
def outAck : Option CommitOut → Option Ack
  | some out => some out.ack
  | none => none

/-- Whether the commit handler's try-block completed without a thrown error. -/
def outResultOk : Option CommitOut → Bool
  | some out => match out.result with | .ok _ => true | .error _ => false
  | none => false

/-! ## Concrete fixtures (one client "acme", various form states and oracles) -/

def cfgA : Cfg := ⟨"own", "repo", "acme-tests"⟩

def clientsA : String → Option Cfg := fun k => if k = "acme" then some cfgA else none

def emptyState : FormState := fun _ _ => none

def stPick : FormState := fun b a =>
  if b = "client_block" && a = "client_select" then some "acme"
  else if b = "testname_block" && a = "test_name" then some "hero-cta" else none

def stMissingName : FormState := fun b a =>
  if b = "client_block" && a = "client_select" then some "acme" else none

def stUnknownClient : FormState := fun b a =>
  if b = "client_block" && a = "client_select" then some "zzz"
  else if b = "testname_block" && a = "test_name" then some "hero-cta" else none

def stVarAbc : FormState := fun b a =>
  if b = "var_id" && a = "val" then some "abc" else none

def stVar7 : FormState := fun b a =>
  if b = "var_id" && a = "val" then some "7" else none

def stCount9 : FormState := fun b a =>
  if b = "varcount_block" && a = "var_count" then some "9" else none

def ghAbsent : String → GetContentResult := fun _ => .notFound

def ghFile : String → GetContentResult := fun p => .file ("sha-" ++ p)

def ghBoom : String → GetContentResult := fun _ => .err "boom"

def putOk : WriteReq → Except String Unit := fun _ => .ok ()

def putFailVar2js : WriteReq → Except String Unit := fun w =>
  if w.path = "acme-tests/hero-cta/var-2.js" then .error "rate limited" else .ok ()

def metaStep1 : Meta := ⟨some "acme", some "hero-cta", some true, none⟩

def metaCount1 : Meta := ⟨some "acme", some "hero-cta", none, some 1⟩

def metaCount2 : Meta := ⟨some "acme", some "hero-cta", none, some 2⟩

/-- The update form view `choose_update` produces for the "acme"/"hero-cta"
fixture. -/
def updFormViewA : View :=
  { callbackId := "crp_update_commit", metadata := some metaStep1,
    title := "Update Existing Test",
    blocks :=
      [ .section "Updating files under `acme-tests/hero-cta` (default: var-1)",
        .inputB "var_id" "Variation number" false,
        .inputB "u_js" "New JS snippet" true,
        .inputB "u_css" "New CSS snippet" true ] }

/-- The first create-flow write against `ghFile` for the fixture. -/
def wCreate1 : WriteReq :=
  ⟨"acme-tests/hero-cta/var-1.js", "",
   "CRP: create hero-cta (acme) -> acme-tests/hero-cta/var-1.js", "main",
   some "sha-acme-tests/hero-cta/var-1.js"⟩

/-- The first update-flow write against `ghAbsent` for the fixture. -/
def wUpdate1 : WriteReq :=
  ⟨"acme-tests/hero-cta/var-1.js", "", "CRP: update hero-cta var-1.js", "main", none⟩

/-- The first update-flow write for variation 7 against `ghFile`. -/
def wUpdate7 : WriteReq :=
  ⟨"acme-tests/hero-cta/var-7.js", "", "CRP: update hero-cta var-7.js", "main",
   some "sha-acme-tests/hero-cta/var-7.js"⟩

deriving instance DecidableEq for Except

/-! ## Shape lemmas -/

theorem githubGetFileSha_eq_ok {r : GetContentResult} (h : isGhErr r = false) :
    githubGetFileSha r = .ok (okSha r) := by
  cases r <;> simp_all [githubGetFileSha, okSha, isGhErr]

theorem githubGetFileSha_ok_inv {r : GetContentResult} {m : Option String}
    (h : githubGetFileSha r = .ok m) : isGhErr r = false ∧ m = okSha r := by
  cases r <;> simp_all [githubGetFileSha, okSha, isGhErr]

theorem jsOrUndef_okSha (r : GetContentResult) : jsOrUndef (okSha r) = okSha r := by
  cases r with
  | file s =>
    by_cases hs : s = "" <;> simp [okSha, jsOrUndef, hs]
  | _ => simp [okSha, jsOrUndef]

theorem jsTruthyOpt_okSha (r : GetContentResult) :
    jsTruthyOpt (okSha r) = (okSha r).isSome := by
  cases r with
  | file s =>
    by_cases hs : s = "" <;> simp [okSha, jsTruthyOpt, hs]
  | _ => simp [okSha, jsTruthyOpt]

/-- Every write issued by the create loop carries `sha || undefined` of the
marker fetched for its own path (and that fetch did not throw). -/
theorem runWriteLoop_writes_shape (gh : String → GetContentResult)
    (put : WriteReq → Except String Unit) (mkMsg : String → String) (branch : String)
    (ops : List (String × String)) :
    ∀ w ∈ (runWriteLoop gh put mkMsg branch ops).2.1,
      isGhErr (gh w.path) = false ∧ w.sha = jsOrUndef (okSha (gh w.path)) := by
  induction ops with
  | nil => intro w hw; simp [runWriteLoop] at hw
  | cons pc rest ih =>
    intro w hw
    obtain ⟨path, content⟩ := pc
    simp only [runWriteLoop] at hw
    cases hg : githubGetFileSha (gh path) with
    | error e => rw [hg] at hw; simp at hw
    | ok sha =>
      rw [hg] at hw
      obtain ⟨hne, hsha⟩ := githubGetFileSha_ok_inv hg
      simp only at hw
      cases hp : put ⟨path, content, mkMsg path, branch, jsOrUndef sha⟩ with
      | error e =>
        rw [hp] at hw
        simp at hw
        subst hw
        exact ⟨hne, by simp [hsha, jsOrUndef_okSha]⟩
      | ok u =>
        rw [hp] at hw
        simp at hw
        rcases hw with hw | hw
        · subst hw
          exact ⟨hne, by simp [hsha, jsOrUndef_okSha]⟩
        · exact ih w hw

/-- If the whole create loop succeeds, it fetched and wrote exactly the given
ops, in order. -/
theorem runWriteLoop_ok (gh : String → GetContentResult)
    (put : WriteReq → Except String Unit) (mkMsg : String → String) (branch : String)
    (ops : List (String × String))
    (hget : ∀ pc ∈ ops, isGhErr (gh pc.1) = false)
    (hput : ∀ pc ∈ ops, put (buildWrite gh mkMsg branch pc) = .ok ()) :
    runWriteLoop gh put mkMsg branch ops =
      (ops.map Prod.fst, ops.map (buildWrite gh mkMsg branch), .ok ()) := by
  induction ops with
  | nil => rfl
  | cons pc rest ih =>
    obtain ⟨path, content⟩ := pc
    have h1 : isGhErr (gh path) = false := hget _ (List.mem_cons_self _ _)
    have h2 := hput _ (List.mem_cons_self _ _)
    simp only [runWriteLoop, githubGetFileSha_eq_ok h1]
    simp only [buildWrite] at h2
    simp only [h2]
    rw [ih (fun q hq => hget q (List.mem_cons_of_mem _ hq))
          (fun q hq => hput q (List.mem_cons_of_mem _ hq))]
    simp [buildWrite]

/-- If the loop's prefix succeeds and the write for `pc` throws, the loop
stops there: it issued exactly the prefix writes plus the failing one, and
returns the thrown message. -/
theorem runWriteLoop_fail (gh : String → GetContentResult)
    (put : WriteReq → Except String Unit) (mkMsg : String → String) (branch : String)
    (pre : List (String × String)) (pc : String × String) (post : List (String × String))
    (msg : String)
    (hget : ∀ q ∈ pre, isGhErr (gh q.1) = false)
    (hput : ∀ q ∈ pre, put (buildWrite gh mkMsg branch q) = .ok ())
    (hgetpc : isGhErr (gh pc.1) = false)
    (hputpc : put (buildWrite gh mkMsg branch pc) = .error msg) :
    runWriteLoop gh put mkMsg branch (pre ++ pc :: post) =
      (pre.map Prod.fst ++ [pc.1],
       pre.map (buildWrite gh mkMsg branch) ++ [buildWrite gh mkMsg branch pc],
       .error msg) := by
  induction pre with
  | nil =>
    obtain ⟨path, content⟩ := pc
    simp only [List.nil_append, runWriteLoop, githubGetFileSha_eq_ok hgetpc]
    simp only [buildWrite] at hputpc
    simp only [hputpc]
    simp [buildWrite]
  | cons q rest ih =>
    obtain ⟨path, content⟩ := q
    have h1 : isGhErr (gh path) = false := hget _ (List.mem_cons_self _ _)
    have h2 := hput _ (List.mem_cons_self _ _)
    simp only [List.cons_append, runWriteLoop, githubGetFileSha_eq_ok h1]
    simp only [buildWrite] at h2
    simp only [h2, List.append_eq]
    rw [ih (fun x hx => hget x (List.mem_cons_of_mem _ hx))
          (fun x hx => hput x (List.mem_cons_of_mem _ hx))]
    simp [buildWrite]

/-- If the create loop reports success, the issued writes' paths are exactly
the ops' paths. -/
theorem runWriteLoop_ok_paths (gh : String → GetContentResult)
    (put : WriteReq → Except String Unit) (mkMsg : String → String) (branch : String)
    (ops : List (String × String))
    (h : (runWriteLoop gh put mkMsg branch ops).2.2 = .ok ()) :
    (runWriteLoop gh put mkMsg branch ops).2.1.map WriteReq.path = ops.map Prod.fst := by
  induction ops with
  | nil => rfl
  | cons pc rest ih =>
    obtain ⟨path, content⟩ := pc
    simp only [runWriteLoop] at h ⊢
    cases hg : githubGetFileSha (gh path) with
    | error e => simp only [hg] at h; simp at h
    | ok sha =>
      simp only [hg] at h ⊢
      cases hp : put ⟨path, content, mkMsg path, branch, jsOrUndef sha⟩ with
      | error e => simp only [hp] at h; simp at h
      | ok u =>
        simp only [hp] at h ⊢
        simp only [List.map_cons]
        rw [ih h]

/-- The paths of the create-flow ops are exactly the expected
`var-1.js, var-1.css, …, var-n.js, var-n.css` sequence. -/
theorem createOps_paths (cfg : Cfg) (testName : String) (n : Nat) (state : FormState) :
    (createOps cfg testName n state).map Prod.fst =
      expectedCreatePaths cfg.testsPath testName n := by
  simp [createOps, expectedCreatePaths, List.map_flatMap]

theorem expectedCreatePaths_length (testsPath testName : String) (n : Nat) :
    (expectedCreatePaths testsPath testName n).length = 2 * n := by
  induction n with
  | zero => rfl
  | succ k ih =>
    simp only [expectedCreatePaths, List.range_succ, List.flatMap_append] at ih ⊢
    simp [ih, expectedCreatePaths, Nat.mul_succ]

/-- The input fields of the snippet dialog: `js_i` then `css_i` per variation. -/
theorem inputIds_snippetBlocks (n : Nat) :
    inputIds (snippetBlocks n) =
      (List.range n).flatMap (fun j => ["js_" ++ toString (j + 1), "css_" ++ toString (j + 1)]) := by
  induction n with
  | zero => rfl
  | succ k ih =>
    simp only [snippetBlocks, List.range_succ, List.flatMap_append, inputIds,
      List.filterMap_append] at ih ⊢
    rw [ih]
    simp [inputIds]

theorem clampCount_bounds (raw : String) : 1 ≤ clampCount raw ∧ clampCount raw ≤ 5 := by
  unfold clampCount
  omega

/-- Every write issued by the update flow targets one of the two computed
paths and carries `sha || undefined` of the marker fetched for that path. -/
theorem update_writes_shape (clients : String → Option Cfg) (gh : String → GetContentResult)
    (put : WriteReq → Except String Unit) (branch : String) (meta : Meta) (state : FormState)
    (cfg : Cfg) (hc : clients (jsStr meta.clientKey) = some cfg) :
    ∀ w ∈ outWrites (crp_update_commit clients gh put branch meta state),
      (w.path = (updateTargetPaths cfg (jsStr meta.testName) state).1 ∨
       w.path = (updateTargetPaths cfg (jsStr meta.testName) state).2) ∧
      isGhErr (gh w.path) = false ∧ w.sha = jsOrUndef (okSha (gh w.path)) := by
  intro w hw
  simp only [crp_update_commit, hc, outWrites] at hw
  split at hw
  · simp at hw
  · rename_i jsSha h1
    obtain ⟨hne1, hsha1⟩ := githubGetFileSha_ok_inv h1
    split at hw
    · simp at hw
    · rename_i cssSha h2
      obtain ⟨hne2, hsha2⟩ := githubGetFileSha_ok_inv h2
      split at hw
      · simp at hw
        subst hw
        exact ⟨Or.inl rfl, hne1, by simp [hsha1, jsOrUndef_okSha]⟩
      · split at hw
        all_goals
          simp at hw
          rcases hw with hw | hw <;> subst hw
          · exact ⟨Or.inl rfl, hne1, by simp [hsha1, jsOrUndef_okSha]⟩
          · exact ⟨Or.inr rfl, hne2, by simp [hsha2, jsOrUndef_okSha]⟩

/-- When neither sha fetch throws and no write throws, the update flow fetches
and writes exactly `var-v.js` then `var-v.css` and its try-block succeeds. -/
theorem update_run_ok (clients : String → Option Cfg) (gh : String → GetContentResult)
    (put : WriteReq → Except String Unit) (branch : String) (meta : Meta) (state : FormState)
    (cfg : Cfg) (hc : clients (jsStr meta.clientKey) = some cfg)
    (h1 : isGhErr (gh (updateTargetPaths cfg (jsStr meta.testName) state).1) = false)
    (h2 : isGhErr (gh (updateTargetPaths cfg (jsStr meta.testName) state).2) = false)
    (hput : ∀ w, put w = .ok ()) :
    outGhCalls (crp_update_commit clients gh put branch meta state) =
      [(updateTargetPaths cfg (jsStr meta.testName) state).1,
       (updateTargetPaths cfg (jsStr meta.testName) state).2] ∧
    (outWrites (crp_update_commit clients gh put branch meta state)).map WriteReq.path =
      [(updateTargetPaths cfg (jsStr meta.testName) state).1,
       (updateTargetPaths cfg (jsStr meta.testName) state).2] ∧
    outResultOk (crp_update_commit clients gh put branch meta state) = true := by
  simp [crp_update_commit, hc, outGhCalls, outWrites, outResultOk,
    githubGetFileSha_eq_ok h1, githubGetFileSha_eq_ok h2, hput]

/-! ## Claims -/

/-- C5: for every string submitted at the variation-count step, the resulting
count lies in [1,5]; values parsing above 5 clamp to 5, values parsing to 0 or
below and non-numeric values yield 1; and the subsequent dialog renders exactly
one JS field (`js_i`) and one CSS field (`css_i`) per counted variation. -/
theorem C5_count_clamped_and_fields (meta : Meta) (state : FormState) (s : String)
    (h : getStateValue state "varcount_block" "var_count" = some s) :
    (1 ≤ clampCount s ∧ clampCount s ≤ 5) ∧
    (5 < (jsParseInt s).getD 1 → clampCount s = 5) ∧
    ((jsParseInt s).getD 0 ≤ 0 → clampCount s = 1) ∧
    (jsParseInt s = none → clampCount s = 1) ∧
    (crp_collect_variation_count meta state).blocks = snippetBlocks (clampCount s).toNat ∧
    inputIds ((crp_collect_variation_count meta state).blocks) =
      (List.range (clampCount s).toNat).flatMap
        (fun j => ["js_" ++ toString (j + 1), "css_" ++ toString (j + 1)]) := by
  have hblocks : (crp_collect_variation_count meta state).blocks =
      snippetBlocks (clampCount s).toNat := by
    simp [crp_collect_variation_count, h]
  refine ⟨clampCount_bounds s, ?_, ?_, ?_, hblocks, ?_⟩
  · intro hgt
    cases hp : jsParseInt s with
    | none => rw [hp] at hgt; simp at hgt
    | some v =>
      rw [hp] at hgt
      simp only [Option.getD] at hgt
      simp only [clampCount, jsOrInt, hp]
      split <;> omega
  · intro hle
    cases hp : jsParseInt s with
    | none =>
      simp only [clampCount, jsOrInt, hp]
      omega
    | some v =>
      rw [hp] at hle
      simp only [Option.getD] at hle
      simp only [clampCount, jsOrInt, hp]
      split <;> omega
  · intro hp
    simp only [clampCount, jsOrInt, hp]
    omega
  · rw [hblocks]
    exact inputIds_snippetBlocks _

/-- Witness for C5 at the concrete input "9" (e.g. the spec's "9 → 5 fields"). -/
theorem C5_witness :
    getStateValue stCount9 "varcount_block" "var_count" = some "9" ∧
    ((1 ≤ clampCount "9" ∧ clampCount "9" ≤ 5) ∧
     (5 < (jsParseInt "9").getD 1 → clampCount "9" = 5) ∧
     ((jsParseInt "9").getD 0 ≤ 0 → clampCount "9" = 1) ∧
     (jsParseInt "9" = none → clampCount "9" = 1) ∧
     (crp_collect_variation_count metaStep1 stCount9).blocks =
       snippetBlocks (clampCount "9").toNat ∧
     inputIds ((crp_collect_variation_count metaStep1 stCount9).blocks) =
       (List.range (clampCount "9").toNat).flatMap
         (fun j => ["js_" ++ toString (j + 1), "css_" ++ toString (j + 1)])) :=
  ⟨by decide, C5_count_clamped_and_fields metaStep1 stCount9 "9" (by decide)⟩

/-- C2 counterexample: the variation-count submission drops the existence
flag recorded at step 1 — its metadata carries `existsFlag = none` although
the incoming metadata had `existsFlag = some true` — so "client identifier,
test name, and existence flag are all still present in every subsequent
dialog" is false at this concrete transition. -/
theorem C2_counterexample :
    metaStep1.existsFlag = some true ∧
    ((crp_collect_variation_count metaStep1 emptyState).metadata.map Meta.existsFlag) =
      some none := by decide

/-- C2 (amended): after step 1 the client identifier and test name are
preserved by every transition, and the two button handlers pass the whole
metadata through unchanged; but the variation-count submission re-serializes
only `{clientKey, testName, count}`, dropping the existence flag while
adding the count. -/
theorem C2_metadata_threading :
    (∀ meta, (choose_create meta).metadata = some meta) ∧
    (∀ clients meta v, choose_update clients meta = some v → v.metadata = some meta) ∧
    (∀ meta state, (crp_collect_variation_count meta state).metadata =
        some ⟨meta.clientKey, meta.testName, none,
          some (clampCount ((getStateValue state "varcount_block" "var_count").getD "1"))⟩) := by
  refine ⟨fun meta => rfl, ?_, fun meta state => rfl⟩
  intro clients meta v hv
  unfold choose_update at hv
  cases hcl : clients (jsStr meta.clientKey) with
  | none => rw [hcl] at hv; simp at hv
  | some cfg =>
    rw [hcl] at hv
    simp only [Option.some.injEq] at hv
    rw [← hv]

/-- Witness for C2 (amended) at the "acme"/"hero-cta" fixture. -/
theorem C2_witness :
    (choose_create metaStep1).metadata = some metaStep1 ∧
    (choose_update clientsA metaStep1 = some updFormViewA ∧
     updFormViewA.metadata = some metaStep1) ∧
    (crp_collect_variation_count metaStep1 stCount9).metadata =
      some ⟨metaStep1.clientKey, metaStep1.testName, none,
        some (clampCount ((getStateValue stCount9 "varcount_block" "var_count").getD "1"))⟩ :=
  ⟨C2_metadata_threading.1 metaStep1,
   ⟨by decide, C2_metadata_threading.2.1 clientsA metaStep1 updFormViewA (by decide)⟩,
   C2_metadata_threading.2.2 metaStep1 stCount9⟩

/-- C1 counterexample: an update submission whose index field holds the
unparsable value "abc" does NOT default to 1 — `parseInt('abc', 10)` is `NaN`
(the `|| '1'` fallback only fires for an empty/missing field), so both writes
target `…/var-NaN.js` / `…/var-NaN.css`, not the claimed `…/var-1.*`. -/
theorem C1_counterexample :
    getStateValue stVarAbc "var_id" "val" = some "abc" ∧
    jsParseInt "abc" = none ∧
    (outWrites (crp_update_commit clientsA ghAbsent putOk "main" metaStep1 stVarAbc)).map
        WriteReq.path =
      ["acme-tests/hero-cta/var-NaN.js", "acme-tests/hero-cta/var-NaN.css"] ∧
    ("acme-tests/hero-cta/var-NaN.js" : String) ≠ "acme-tests/hero-cta/var-1.js" ∧
    ("acme-tests/hero-cta/var-NaN.css" : String) ≠ "acme-tests/hero-cta/var-1.css" := by
  decide

/-- C1 (amended): on update submission the variation index is
`parseInt(field || '1', 10)`: it is 1 when the field is empty or missing, the
parsed integer when the field parses, and `NaN` for a non-empty unparsable
field; both target paths are `<baseDir>/var-<v>.js` / `.css` with `<v>`
rendered from that index (so `var-NaN.*` in the `NaN` case), and every write
the handler issues targets one of those two paths. -/
theorem C1_update_index_and_paths :
    (∀ state, getStateValue state "var_id" "val" = none → updateIndex state = some 1) ∧
    (∀ state s, getStateValue state "var_id" "val" = some s →
       updateIndex state = jsParseInt s) ∧
    (∀ cfg testName state, updateTargetPaths cfg testName state =
       (cfg.testsPath ++ "/" ++ testName ++ "/var-" ++ jsNumStr (updateIndex state) ++ ".js",
        cfg.testsPath ++ "/" ++ testName ++ "/var-" ++ jsNumStr (updateIndex state) ++ ".css")) ∧
    (∀ state s, getStateValue state "var_id" "val" = some s → jsParseInt s = none →
       jsNumStr (updateIndex state) = "NaN") ∧
    (∀ clients gh put branch meta state cfg w,
       clients (jsStr meta.clientKey) = some cfg →
       w ∈ outWrites (crp_update_commit clients gh put branch meta state) →
       w.path = (updateTargetPaths cfg (jsStr meta.testName) state).1 ∨
       w.path = (updateTargetPaths cfg (jsStr meta.testName) state).2) := by
  refine ⟨?_, ?_, fun cfg testName state => rfl, ?_, ?_⟩
  · intro state h
    unfold updateIndex
    rw [h]
    decide
  · intro state s h
    unfold updateIndex
    rw [h, Option.getD_some]
  · intro state s h hn
    unfold updateIndex
    rw [h]
    simp only [Option.getD_some, hn, jsNumStr]
  · intro clients gh put branch meta state cfg w hc hw
    exact (update_writes_shape clients gh put branch meta state cfg hc w hw).1

/-- Witness for C1 (amended): missing field → index 1; "abc" → `NaN`; a
concrete issued write targets the computed path. -/
theorem C1_witness :
    (getStateValue emptyState "var_id" "val" = none ∧ updateIndex emptyState = some 1) ∧
    (getStateValue stVarAbc "var_id" "val" = some "abc" ∧
     updateIndex stVarAbc = jsParseInt "abc" ∧
     jsParseInt "abc" = none ∧
     jsNumStr (updateIndex stVarAbc) = "NaN") ∧
    (clientsA (jsStr metaStep1.clientKey) = some cfgA ∧
     wUpdate7 ∈ outWrites (crp_update_commit clientsA ghFile putOk "main" metaStep1 stVar7) ∧
     (wUpdate7.path = (updateTargetPaths cfgA (jsStr metaStep1.testName) stVar7).1 ∨
      wUpdate7.path = (updateTargetPaths cfgA (jsStr metaStep1.testName) stVar7).2)) :=
  ⟨⟨by decide, C1_update_index_and_paths.1 emptyState (by decide)⟩,
   ⟨by decide, C1_update_index_and_paths.2.1 stVarAbc "abc" (by decide), by decide,
    C1_update_index_and_paths.2.2.2.1 stVarAbc "abc" (by decide) (by decide)⟩,
   ⟨by decide, by decide,
    C1_update_index_and_paths.2.2.2.2 clientsA ghFile putOk "main" metaStep1 stVar7 cfgA
      wUpdate7 (by decide) (by decide)⟩⟩

/-- C10: the update flow applies NO range restriction to the parsed index:
whenever the index field parses to an integer `v` (including 0, negatives, or
values above 5), the two target paths — and, when no remote call throws, the
two issued writes — are exactly `<baseDir>/var-<v>.js` and
`<baseDir>/var-<v>.css` for that very `v`. -/
theorem C10_index_used_unclamped (clients : String → Option Cfg)
    (gh : String → GetContentResult) (put : WriteReq → Except String Unit)
    (branch : String) (meta : Meta) (state : FormState) (cfg : Cfg) (s : String) (v : Int)
    (hc : clients (jsStr meta.clientKey) = some cfg)
    (hs : getStateValue state "var_id" "val" = some s)
    (hv : jsParseInt s = some v)
    (hget : ∀ p, isGhErr (gh p) = false)
    (hput : ∀ w, put w = .ok ()) :
    updateTargetPaths cfg (jsStr meta.testName) state =
      (cfg.testsPath ++ "/" ++ jsStr meta.testName ++ "/var-" ++ toString v ++ ".js",
       cfg.testsPath ++ "/" ++ jsStr meta.testName ++ "/var-" ++ toString v ++ ".css") ∧
    (outWrites (crp_update_commit clients gh put branch meta state)).map WriteReq.path =
      [cfg.testsPath ++ "/" ++ jsStr meta.testName ++ "/var-" ++ toString v ++ ".js",
       cfg.testsPath ++ "/" ++ jsStr meta.testName ++ "/var-" ++ toString v ++ ".css"] := by
  have hidx : updateIndex state = some v := by
    unfold updateIndex
    rw [hs, Option.getD_some, hv]
  have hpaths : updateTargetPaths cfg (jsStr meta.testName) state =
      (cfg.testsPath ++ "/" ++ jsStr meta.testName ++ "/var-" ++ toString v ++ ".js",
       cfg.testsPath ++ "/" ++ jsStr meta.testName ++ "/var-" ++ toString v ++ ".css") := by
    unfold updateTargetPaths
    rw [hidx]
    simp [jsNumStr]
  refine ⟨hpaths, ?_⟩
  have h := update_run_ok clients gh put branch meta state cfg hc (hget _) (hget _) hput
  rw [hpaths] at h
  exact h.2.1

/-- Witness for C10 at the out-of-range index "7". -/
theorem C10_witness :
    clientsA (jsStr metaStep1.clientKey) = some cfgA ∧
    getStateValue stVar7 "var_id" "val" = some "7" ∧
    jsParseInt "7" = some 7 ∧
    (updateTargetPaths cfgA (jsStr metaStep1.testName) stVar7 =
       (cfgA.testsPath ++ "/" ++ jsStr metaStep1.testName ++ "/var-" ++ toString (7 : Int) ++ ".js",
        cfgA.testsPath ++ "/" ++ jsStr metaStep1.testName ++ "/var-" ++ toString (7 : Int) ++ ".css") ∧
     (outWrites (crp_update_commit clientsA ghFile putOk "main" metaStep1 stVar7)).map
         WriteReq.path =
       [cfgA.testsPath ++ "/" ++ jsStr metaStep1.testName ++ "/var-" ++ toString (7 : Int) ++ ".js",
        cfgA.testsPath ++ "/" ++ jsStr metaStep1.testName ++ "/var-" ++ toString (7 : Int) ++ ".css"]) :=
  ⟨by decide, by decide, by decide,
   C10_index_used_unclamped clientsA ghFile putOk "main" metaStep1 stVar7 cfgA "7" 7
     (by decide) (by decide) (by decide) (fun p => rfl) (fun w => rfl)⟩

/-- C3: every write issued by the create and update flows carries as its
expected-revision precondition exactly the marker that was fetched for its
path: the fetch succeeded with marker `okSha (gh w.path)`, and `w.sha` equals
that marker — so a `null` (`none`) marker gives a write with no precondition
(create) and a non-null marker gives a write whose precondition is exactly
that marker (update). -/
theorem C3_write_preconditions :
    (∀ clients gh put branch meta state w,
       w ∈ outWrites (crp_create_commit clients gh put branch meta state) →
       githubGetFileSha (gh w.path) = .ok (okSha (gh w.path)) ∧
       w.sha = okSha (gh w.path)) ∧
    (∀ clients gh put branch meta state w,
       w ∈ outWrites (crp_update_commit clients gh put branch meta state) →
       githubGetFileSha (gh w.path) = .ok (okSha (gh w.path)) ∧
       w.sha = okSha (gh w.path)) := by
  constructor
  · intro clients gh put branch meta state w hw
    cases hcl : clients (jsStr meta.clientKey) with
    | none => simp [crp_create_commit, hcl, outWrites] at hw
    | some cfg =>
      simp only [crp_create_commit, hcl, outWrites] at hw
      have h := runWriteLoop_writes_shape gh put
        (createMsg (jsStr meta.testName) (jsStr meta.clientKey)) branch
        (createOps cfg (jsStr meta.testName) (loopIters meta.count) state) w hw
      exact ⟨githubGetFileSha_eq_ok h.1, by rw [h.2, jsOrUndef_okSha]⟩
  · intro clients gh put branch meta state w hw
    cases hcl : clients (jsStr meta.clientKey) with
    | none => simp [crp_update_commit, hcl, outWrites] at hw
    | some cfg =>
      have h := update_writes_shape clients gh put branch meta state cfg hcl w hw
      exact ⟨githubGetFileSha_eq_ok h.2.1, by rw [h.2.2, jsOrUndef_okSha]⟩

/-- Witness for C3: a create-flow write against an existing file carries its
fetched sha; an update-flow write against a missing file carries none. -/
theorem C3_witness :
    (wCreate1 ∈ outWrites (crp_create_commit clientsA ghFile putOk "main" metaCount1 emptyState) ∧
     githubGetFileSha (ghFile wCreate1.path) = .ok (okSha (ghFile wCreate1.path)) ∧
     wCreate1.sha = okSha (ghFile wCreate1.path)) ∧
    (wUpdate1 ∈ outWrites (crp_update_commit clientsA ghAbsent putOk "main" metaStep1 emptyState) ∧
     githubGetFileSha (ghAbsent wUpdate1.path) = .ok (okSha (ghAbsent wUpdate1.path)) ∧
     wUpdate1.sha = okSha (ghAbsent wUpdate1.path)) :=
  ⟨⟨by decide,
    C3_write_preconditions.1 clientsA ghFile putOk "main" metaCount1 emptyState wCreate1
      (by decide)⟩,
   ⟨by decide,
    C3_write_preconditions.2 clientsA ghAbsent putOk "main" metaStep1 emptyState wUpdate1
      (by decide)⟩⟩

/-- C4: a create-flow submission with variation count N whose try-block
completes issues exactly 2N writes, targeting
`<baseDir>/var-1.js, var-1.css, …, var-N.js, var-N.css` in exactly that
order. -/
theorem C4_create_write_sequence (clients : String → Option Cfg)
    (gh : String → GetContentResult) (put : WriteReq → Except String Unit)
    (branch : String) (meta : Meta) (state : FormState) (cfg : Cfg)
    (hc : clients (jsStr meta.clientKey) = some cfg)
    (hok : outResultOk (crp_create_commit clients gh put branch meta state) = true) :
    (outWrites (crp_create_commit clients gh put branch meta state)).map WriteReq.path =
      expectedCreatePaths cfg.testsPath (jsStr meta.testName) (loopIters meta.count) ∧
    (outWrites (crp_create_commit clients gh put branch meta state)).length =
      2 * loopIters meta.count := by
  simp only [crp_create_commit, hc, outWrites, outResultOk] at hok ⊢
  have hres : (runWriteLoop gh put (createMsg (jsStr meta.testName) (jsStr meta.clientKey))
      branch (createOps cfg (jsStr meta.testName) (loopIters meta.count) state)).2.2 =
      .ok () := by
    cases hr : (runWriteLoop gh put (createMsg (jsStr meta.testName) (jsStr meta.clientKey))
        branch (createOps cfg (jsStr meta.testName) (loopIters meta.count) state)).2.2 with
    | ok u => cases u; rfl
    | error e => rw [hr] at hok; simp at hok
  have hpaths := runWriteLoop_ok_paths gh put
    (createMsg (jsStr meta.testName) (jsStr meta.clientKey)) branch
    (createOps cfg (jsStr meta.testName) (loopIters meta.count) state) hres
  rw [createOps_paths] at hpaths
  refine ⟨hpaths, ?_⟩
  have hlen := congrArg List.length hpaths
  rw [List.length_map, expectedCreatePaths_length] at hlen
  exact hlen

/-- Witness for C4 with count 2 against existing files. -/
theorem C4_witness :
    clientsA (jsStr metaCount2.clientKey) = some cfgA ∧
    outResultOk (crp_create_commit clientsA ghFile putOk "main" metaCount2 emptyState) = true ∧
    ((outWrites (crp_create_commit clientsA ghFile putOk "main" metaCount2 emptyState)).map
        WriteReq.path =
      expectedCreatePaths cfgA.testsPath (jsStr metaCount2.testName)
        (loopIters metaCount2.count) ∧
     (outWrites (crp_create_commit clientsA ghFile putOk "main" metaCount2 emptyState)).length =
      2 * loopIters metaCount2.count) :=
  ⟨by decide, by decide,
   C4_create_write_sequence clientsA ghFile putOk "main" metaCount2 emptyState cfgA
     (by decide) (by decide)⟩

/-- C6: in the create commit, if the writes for the ops before `pc` succeed
and the write for `pc` throws, the handler issues exactly the writes for the
prefix plus the failing one — nothing after it, and no compensating effect
(the model's only effects are the writes listed) — and acks a terminal error
dialog whose text carries the failure message; if every fetch and write
succeeds, it acks the terminal confirmation dialog. -/
theorem C6_partial_failure_and_success :
    (∀ clients gh put branch meta state cfg pre pc post msg,
       clients (jsStr meta.clientKey) = some cfg →
       createOps cfg (jsStr meta.testName) (loopIters meta.count) state =
         pre ++ pc :: post →
       (∀ q ∈ pre, isGhErr (gh q.1) = false) →
       (∀ q ∈ pre, put (buildWrite gh
          (createMsg (jsStr meta.testName) (jsStr meta.clientKey)) branch q) = .ok ()) →
       isGhErr (gh pc.1) = false →
       put (buildWrite gh (createMsg (jsStr meta.testName) (jsStr meta.clientKey))
          branch pc) = .error msg →
       outWrites (crp_create_commit clients gh put branch meta state) =
         pre.map (buildWrite gh (createMsg (jsStr meta.testName) (jsStr meta.clientKey))
           branch) ++
         [buildWrite gh (createMsg (jsStr meta.testName) (jsStr meta.clientKey)) branch pc] ∧
       (outWrites (crp_create_commit clients gh put branch meta state)).length =
         pre.length + 1 ∧
       outAck (crp_create_commit clients gh put branch meta state) =
         some (.updateView (noopView "Error"
           ("❌ GitHub error creating files:\n`" ++ msg ++ "`")))) ∧
    (∀ clients gh put branch meta state cfg,
       clients (jsStr meta.clientKey) = some cfg →
       (∀ q ∈ createOps cfg (jsStr meta.testName) (loopIters meta.count) state,
          isGhErr (gh q.1) = false) →
       (∀ q ∈ createOps cfg (jsStr meta.testName) (loopIters meta.count) state,
          put (buildWrite gh (createMsg (jsStr meta.testName) (jsStr meta.clientKey))
            branch q) = .ok ()) →
       outWrites (crp_create_commit clients gh put branch meta state) =
         (createOps cfg (jsStr meta.testName) (loopIters meta.count) state).map
           (buildWrite gh (createMsg (jsStr meta.testName) (jsStr meta.clientKey)) branch) ∧
       outAck (crp_create_commit clients gh put branch meta state) =
         some (.updateView (noopView "Created ✅"
           ("Created *" ++ jsStr meta.testName ++ "* for *" ++ jsStr meta.clientKey ++
            "* with " ++ jsCountStr meta.count ++ " variation(s).")))) := by
  constructor
  · intro clients gh put branch meta state cfg pre pc post msg hc hops hget hput hgetpc hputpc
    simp only [crp_create_commit, hc, outWrites, outAck]
    rw [hops, runWriteLoop_fail gh put _ branch pre pc post msg hget hput hgetpc hputpc]
    refine ⟨rfl, ?_, rfl⟩
    simp
  · intro clients gh put branch meta state cfg hc hget hput
    simp only [crp_create_commit, hc, outWrites, outAck]
    rw [runWriteLoop_ok gh put _ branch _ hget hput]
    exact ⟨rfl, rfl⟩

/-- Witness for C6: with count 2, the third write (`var-2.js`) throws "rate
limited": exactly three writes are issued and the error dialog carries the
message; with all writes succeeding, the confirmation dialog is acked. -/
theorem C6_witness :
    (clientsA (jsStr metaCount2.clientKey) = some cfgA ∧
     createOps cfgA (jsStr metaCount2.testName) (loopIters metaCount2.count) emptyState =
       [("acme-tests/hero-cta/var-1.js", ""), ("acme-tests/hero-cta/var-1.css", "")] ++
         ("acme-tests/hero-cta/var-2.js", "") :: [("acme-tests/hero-cta/var-2.css", "")] ∧
     (outWrites (crp_create_commit clientsA ghFile putFailVar2js "main" metaCount2
          emptyState)).length = 2 + 1 ∧
     outAck (crp_create_commit clientsA ghFile putFailVar2js "main" metaCount2 emptyState) =
       some (.updateView (noopView "Error"
         ("❌ GitHub error creating files:\n`" ++ "rate limited" ++ "`")))) ∧
    (outAck (crp_create_commit clientsA ghFile putOk "main" metaCount2 emptyState) =
       some (.updateView (noopView "Created ✅"
         ("Created *" ++ jsStr metaCount2.testName ++ "* for *" ++
          jsStr metaCount2.clientKey ++ "* with " ++ jsCountStr metaCount2.count ++
          " variation(s).")))) :=
  ⟨⟨by decide, by decide,
    ((C6_partial_failure_and_success.1 clientsA ghFile putFailVar2js "main" metaCount2
        emptyState cfgA
        [("acme-tests/hero-cta/var-1.js", ""), ("acme-tests/hero-cta/var-1.css", "")]
        ("acme-tests/hero-cta/var-2.js", "") [("acme-tests/hero-cta/var-2.css", "")]
        "rate limited" (by decide) (by decide) (by decide) (by decide) (by decide)
        (by decide)).2.1.trans (by decide)),
    (C6_partial_failure_and_success.1 clientsA ghFile putFailVar2js "main" metaCount2
        emptyState cfgA
        [("acme-tests/hero-cta/var-1.js", ""), ("acme-tests/hero-cta/var-1.css", "")]
        ("acme-tests/hero-cta/var-2.js", "") [("acme-tests/hero-cta/var-2.css", "")]
        "rate limited" (by decide) (by decide) (by decide) (by decide) (by decide)
        (by decide)).2.2⟩,
   (C6_partial_failure_and_success.2 clientsA ghFile putOk "main" metaCount2 emptyState cfgA
      (by decide) (by decide) (by decide)).2⟩

/-- C7: after a valid step-1 submission, the existence flag pushed with the
choice dialog is `true` exactly when the fetch for `<basePath>/<testName>`
returned a non-null marker (the directory sentinel `some "DIR"` included),
`false` when it returned null, and the "Update Existing" button is offered
exactly when the flag is true. -/
theorem C7_existence_flag (clients : String → Option Cfg)
    (gh : String → GetContentResult) (state : FormState) (ck : String) (cfg : Cfg)
    (m : Option String)
    (hck : getStateValue state "client_block" "client_select" = some ck)
    (htn : pickTestName state ≠ "")
    (hc : clients ck = some cfg)
    (hm : githubGetFileSha (gh (cfg.testsPath ++ "/" ++ pickTestName state)) = .ok m) :
    ackExistsFlag (crp_pick_client_test clients gh state).ack = some m.isSome ∧
    ackIsChoicePush (crp_pick_client_test clients gh state).ack = true ∧
    ackOffersUpdate (crp_pick_client_test clients gh state).ack = m.isSome := by
  obtain ⟨hne, hsha⟩ := githubGetFileSha_ok_inv hm
  have hflag : jsTruthyOpt m = m.isSome := by
    rw [hsha]; exact jsTruthyOpt_okSha _
  have hbeq : (pickTestName state == "") = false := by
    simp only [beq_eq_false_iff_ne, ne_eq]
    exact htn
  simp only [crp_pick_client_test, hck, Option.isNone_some, Bool.false_or, hbeq,
    Bool.false_eq_true, if_false, Option.getD_some, hc, hm, hflag]
  cases hb : m.isSome <;>
    simp [ackExistsFlag, ackIsChoicePush, ackOffersUpdate, viewButtons]

/-- Witness for C7 at the directory sentinel: the fetch returns `some "DIR"`
and the choice dialog offers "Update Existing". -/
theorem C7_witness :
    getStateValue stPick "client_block" "client_select" = some "acme" ∧
    pickTestName stPick ≠ "" ∧
    clientsA "acme" = some cfgA ∧
    githubGetFileSha ((fun _ => GetContentResult.dir)
        (cfgA.testsPath ++ "/" ++ pickTestName stPick)) = .ok (some "DIR") ∧
    (ackExistsFlag (crp_pick_client_test clientsA (fun _ => GetContentResult.dir)
        stPick).ack = some (some "DIR" : Option String).isSome ∧
     ackIsChoicePush (crp_pick_client_test clientsA (fun _ => GetContentResult.dir)
        stPick).ack = true ∧
     ackOffersUpdate (crp_pick_client_test clientsA (fun _ => GetContentResult.dir)
        stPick).ack = (some "DIR" : Option String).isSome) :=
  ⟨by decide, by decide, by decide, by decide,
   C7_existence_flag clientsA (fun _ => GetContentResult.dir) stPick "acme" cfgA
     (some "DIR") (by decide) (by decide) (by decide) (by decide)⟩

/-- C8: if the existence query of step 1 throws, the handler immediately acks
a terminal error dialog whose text carries the failure message, and the
choice dialog (`crp_update_or_create`) is never pushed. -/
theorem C8_query_failure_terminal (clients : String → Option Cfg)
    (gh : String → GetContentResult) (state : FormState) (ck : String) (cfg : Cfg)
    (msg : String)
    (hck : getStateValue state "client_block" "client_select" = some ck)
    (htn : pickTestName state ≠ "")
    (hc : clients ck = some cfg)
    (hq : githubGetFileSha (gh (cfg.testsPath ++ "/" ++ pickTestName state)) = .error msg) :
    (crp_pick_client_test clients gh state).ack =
      .updateView (noopView "CRP Automation"
        ("❌ GitHub check failed:\n`" ++ msg ++ "`")) ∧
    ackIsChoicePush (crp_pick_client_test clients gh state).ack = false := by
  have hbeq : (pickTestName state == "") = false := by
    simp only [beq_eq_false_iff_ne, ne_eq]
    exact htn
  simp only [crp_pick_client_test, hck, Option.isNone_some, Bool.false_or, hbeq,
    Bool.false_eq_true, if_false, Option.getD_some, hc, hq]
  exact ⟨rfl, rfl⟩

/-- Witness for C8: the query throws "boom"; the error dialog carries it and
no choice view is pushed. -/
theorem C8_witness :
    getStateValue stPick "client_block" "client_select" = some "acme" ∧
    pickTestName stPick ≠ "" ∧
    clientsA "acme" = some cfgA ∧
    githubGetFileSha (ghBoom (cfgA.testsPath ++ "/" ++ pickTestName stPick)) =
      .error "boom" ∧
    ((crp_pick_client_test clientsA ghBoom stPick).ack =
       .updateView (noopView "CRP Automation"
         ("❌ GitHub check failed:\n`" ++ "boom" ++ "`")) ∧
     ackIsChoicePush (crp_pick_client_test clientsA ghBoom stPick).ack = false) :=
  ⟨by decide, by decide, by decide, by decide,
   C8_query_failure_terminal clientsA ghBoom stPick "acme" cfgA "boom"
     (by decide) (by decide) (by decide) (by decide)⟩

/-- C9: a step-1 submission with an empty/missing client or test name does
not transition and makes no remote call: the handler re-acks with exactly one
field-level annotation per empty field and none for non-empty fields; an
unknown client identifier likewise yields only the client-field annotation,
no transition and no remote call. -/
theorem C9_validation_annotations (clients : String → Option Cfg)
    (gh : String → GetContentResult) (state : FormState) :
    (((getStateValue state "client_block" "client_select").isNone ||
        (pickTestName state == "")) = true →
      (crp_pick_client_test clients gh state).ghCalls = [] ∧
      ackFieldErrors (crp_pick_client_test clients gh state).ack =
        some ((if (getStateValue state "client_block" "client_select").isNone
                then [("client_block", "Please select a client.")] else []) ++
              (if pickTestName state == ""
                then [("testname_block", "Please enter a test name.")] else []))) ∧
    (∀ ck, getStateValue state "client_block" "client_select" = some ck →
      pickTestName state ≠ "" → clients ck = none →
      (crp_pick_client_test clients gh state).ghCalls = [] ∧
      ackFieldErrors (crp_pick_client_test clients gh state).ack =
        some [("client_block", "Unknown client in configuration.")]) := by
  constructor
  · intro hcond
    simp only [crp_pick_client_test, hcond, if_true]
    exact ⟨trivial, rfl⟩
  · intro ck hck htn hcl
    have hbeq : (pickTestName state == "") = false := by
      simp only [beq_eq_false_iff_ne, ne_eq]
      exact htn
    simp only [crp_pick_client_test, hck, Option.isNone_some, Bool.false_or, hbeq,
      Bool.false_eq_true, if_false, Option.getD_some, hcl]
    exact ⟨trivial, rfl⟩

/-- Witness for C9: a submission with a client but an empty test name gets
exactly the test-name annotation; an unknown client gets exactly the
client-field annotation; neither queries GitHub. -/
theorem C9_witness :
    (((getStateValue stMissingName "client_block" "client_select").isNone ||
        (pickTestName stMissingName == "")) = true ∧
     ((crp_pick_client_test clientsA ghBoom stMissingName).ghCalls = [] ∧
      ackFieldErrors (crp_pick_client_test clientsA ghBoom stMissingName).ack =
        some ((if (getStateValue stMissingName "client_block" "client_select").isNone
                then [("client_block", "Please select a client.")] else []) ++
              (if pickTestName stMissingName == ""
                then [("testname_block", "Please enter a test name.")] else [])))) ∧
    (getStateValue stUnknownClient "client_block" "client_select" = some "zzz" ∧
     pickTestName stUnknownClient ≠ "" ∧
     clientsA "zzz" = none ∧
     ((crp_pick_client_test clientsA ghBoom stUnknownClient).ghCalls = [] ∧
      ackFieldErrors (crp_pick_client_test clientsA ghBoom stUnknownClient).ack =
        some [("client_block", "Unknown client in configuration.")])) :=
  ⟨⟨by decide,
    (C9_validation_annotations clientsA ghBoom stMissingName).1 (by decide)⟩,
   ⟨by decide, by decide, by decide,
    (C9_validation_annotations clientsA ghBoom stUnknownClient).2 "zzz"
      (by decide) (by decide) (by decide)⟩⟩

end CRP
